import Mathlib

/-!
Verification of the GoMediaMinify conversion engine specification.

The definitions below are a shallow embedding of the Go source:

* `internal/converter/adaptive_limiter.go` — the adaptive limiter and its
  controller (`AdaptiveLimiter`, `runAdaptiveController`);
* `internal/converter/converter.go` — recovery (`performRecovery`,
  `verifyExistingFiles`), worker accounting (`convertFiles`);
* `internal/converter/video.go` and the image pipeline (`convertImage`) —
  the per-file pipeline;
* `internal/security/security.go` — `VerifyOutputFile`, `SafeDelete`,
  `IsFileCorrupted`, `CleanupAbandonedFiles`, marker handling;
* `internal/utils/utils.go` — `GetFileDate`, `isValidDate`, `CleanFilename`.

External effects (the encoder binaries, `stat`, process liveness) are
modelled as explicit parameters or as fields of a finite file-system model,
so every definition is executable on concrete inputs.
-/

namespace MediaMinify

/-! ## Adaptive limiter (`adaptive_limiter.go`)

`AdaptiveLimiter` holds `(limit, active)` guarded by a mutex.  We model the
state with `Int` fields exactly as the Go `int` fields, and each exported
method as a state transformer.  `Acquire` blocks while `active >= limit`;
in this sequential model a blocked acquire leaves the state unchanged. -/

structure LimiterState where
  limit : Int
  active : Int
  deriving Repr, DecidableEq

/-- Model of `NewAdaptiveLimiter`: an initial limit below 1 is clamped to 1,
and no worker is active. -/
def newAdaptiveLimiter (limit : Int) : LimiterState :=
  { limit := if limit < 1 then 1 else limit, active := 0 }

inductive LimiterOp where
  | acquire
  | release
  | setLimit (n : Int)
  deriving Repr, DecidableEq

/-- One limiter method call, from `Acquire` / `Release` / `SetLimit` in
`adaptive_limiter.go`.  `Release` only decrements when `active > 0`;
`SetLimit` clamps arguments below 1 up to 1. -/
def limiterApply (s : LimiterState) : LimiterOp → LimiterState
  | .acquire =>
    if s.limit ≤ s.active then s else { s with active := s.active + 1 }
  | .release =>
    { s with active := if 0 < s.active then s.active - 1 else s.active }
  | .setLimit n =>
    { s with limit := if n < 1 then 1 else n }

/-- Run a sequence of limiter calls from a fresh `NewAdaptiveLimiter n`. -/
def limiterRun (n : Int) (ops : List LimiterOp) : LimiterState :=
  ops.foldl limiterApply (newAdaptiveLimiter n)

theorem limiterApply_bounds (s : LimiterState) (op : LimiterOp)
    (h1 : 1 ≤ s.limit) (h2 : 0 ≤ s.active) :
    1 ≤ (limiterApply s op).limit ∧ 0 ≤ (limiterApply s op).active := by
  cases op with
  | acquire =>
    simp only [limiterApply]
    split
    · exact ⟨h1, h2⟩
    · refine ⟨h1, ?_⟩
      show (0 : Int) ≤ s.active + 1
      omega
  | release =>
    refine ⟨h1, ?_⟩
    show (0 : Int) ≤ if 0 < s.active then s.active - 1 else s.active
    split <;> omega
  | setLimit n =>
    refine ⟨?_, h2⟩
    show (1 : Int) ≤ if n < 1 then 1 else n
    split <;> omega

/-- Claim C10: across every sequence of `NewAdaptiveLimiter`, `Acquire`,
`Release`, `SetLimit` calls the state satisfies `1 ≤ limit` and
`0 ≤ active`: the constructor and `SetLimit` clamp arguments below 1 up
to 1, and `Release` never takes `active` below zero. -/
theorem adaptiveLimiter_invariant (n : Int) (ops : List LimiterOp) :
    1 ≤ (limiterRun n ops).limit ∧ 0 ≤ (limiterRun n ops).active := by
  have base : 1 ≤ (newAdaptiveLimiter n).limit ∧ 0 ≤ (newAdaptiveLimiter n).active := by
    refine ⟨?_, le_refl 0⟩
    show (1 : Int) ≤ if n < 1 then 1 else n
    split <;> omega
  unfold limiterRun
  generalize newAdaptiveLimiter n = s at base
  induction ops generalizing s with
  | nil => exact base
  | cons op rest ih =>
    exact ih (limiterApply s op) (limiterApply_bounds s op base.1 base.2)

/-! ## Adaptive controller (`runAdaptiveController`)

The controller consumes `ResourceSnapshot`s and adjusts the limiter's limit
inside the configured bounds.  CPU and memory percentages are `Rat` in the
model (the Go code uses `float64`; no property below depends on rounding). -/

structure AdaptiveWorkerConfig where
  minWorkers : Int
  maxWorkers : Int
  cpuHigh : Rat
  cpuLow : Rat
  memLowPercent : Rat
  deriving Repr

structure ResourceSnapshot where
  cpuPercent : Rat
  memAvailablePercent : Rat
  cpuMeasured : Bool
  memMeasured : Bool
  deriving Repr

/-- Threshold `math.Min(100, cfg.MemLowPercent+5)` from the controller. -/
def comfortMemThreshold (cfg : AdaptiveWorkerConfig) : Rat :=
  min 100 (cfg.memLowPercent + 5)

/-- Busy test of one snapshot (`busy` in `runAdaptiveController`). -/
def snapshotBusy (cfg : AdaptiveWorkerConfig) (snap : ResourceSnapshot) : Bool :=
  (snap.cpuMeasured && decide (cfg.cpuHigh ≤ snap.cpuPercent)) ||
  (snap.memMeasured && decide (snap.memAvailablePercent ≤ cfg.memLowPercent))

/-- Comfort test of one snapshot (`comfortable` in `runAdaptiveController`). -/
def snapshotComfortable (cfg : AdaptiveWorkerConfig) (snap : ResourceSnapshot) : Bool :=
  !(snap.cpuMeasured && decide (cfg.cpuLow < snap.cpuPercent)) &&
  !(snap.memMeasured && decide (snap.memAvailablePercent < comfortMemThreshold cfg))

/-- Clamp of `SetLimit`: arguments below 1 become 1. -/
def setLimitClamp (n : Int) : Int :=
  if n < 1 then 1 else n

structure ControllerState where
  limit : Int
  highStreak : Nat
  lowStreak : Nat
  deriving Repr, DecidableEq

/-- One iteration of the `runAdaptiveController` select loop on a received
snapshot, from `adaptive_limiter.go`. -/
def controllerStep (cfg : AdaptiveWorkerConfig) (s : ControllerState)
    (snap : ResourceSnapshot) : ControllerState :=
  if snapshotBusy cfg snap then
    let s1 : ControllerState := { s with highStreak := s.highStreak + 1, lowStreak := 0 }
    if 1 ≤ s1.highStreak ∧ cfg.minWorkers < s1.limit then
      { s1 with limit := setLimitClamp (s1.limit - 1) }
    else s1
  else if !(snapshotComfortable cfg snap) then
    { s with highStreak := 0, lowStreak := 0 }
  else
    let low := s.lowStreak + 1
    if low < 2 then
      { s with lowStreak := low }
    else
      let s2 : ControllerState := { s with highStreak := 0, lowStreak := 0 }
      if s2.limit < cfg.maxWorkers then
        { s2 with limit := setLimitClamp (s2.limit + 1) }
      else s2

/-- Model of `runAdaptiveController`: if `MaxWorkers < 1` the controller
returns at once, otherwise it folds `controllerStep` over the snapshot
stream.  Only the controller mutates the limit. -/
def runAdaptiveController (cfg : AdaptiveWorkerConfig) (initLimit : Int)
    (snaps : List ResourceSnapshot) : ControllerState :=
  if cfg.maxWorkers < 1 then { limit := initLimit, highStreak := 0, lowStreak := 0 }
  else snaps.foldl (controllerStep cfg) { limit := initLimit, highStreak := 0, lowStreak := 0 }

/-- Adaptive-track job ceiling computed in `convertFiles` (`converter.go`):
`maxJobs := AW.MaxWorkers`, raised to `MinWorkers` then to 1. -/
def videoAdaptiveMaxJobs (cfg : AdaptiveWorkerConfig) : Int :=
  let mj := cfg.maxWorkers
  let mj2 := if mj < cfg.minWorkers then cfg.minWorkers else mj
  if mj2 < 1 then 1 else mj2

/-- Initial limit computed in `convertFiles`: `MinWorkers`, raised to 1 and
capped at the adaptive job ceiling, before `NewAdaptiveLimiter` clamps it. -/
def videoAdaptiveInitialLimit (cfg : AdaptiveWorkerConfig) : Int :=
  let il := cfg.minWorkers
  let il2 := if il < 1 then 1 else il
  if videoAdaptiveMaxJobs cfg < il2 then videoAdaptiveMaxJobs cfg else il2

theorem controllerStep_bounds (cfg : AdaptiveWorkerConfig) (s : ControllerState)
    (snap : ResourceSnapshot) (hmin : 1 ≤ cfg.minWorkers)
    (h1 : cfg.minWorkers ≤ s.limit) (h2 : s.limit ≤ cfg.maxWorkers) :
    cfg.minWorkers ≤ (controllerStep cfg s snap).limit ∧
      (controllerStep cfg s snap).limit ≤ cfg.maxWorkers := by
  simp only [controllerStep, setLimitClamp]
  split
  · split
    · constructor <;> simp_all <;> split <;> omega
    · exact ⟨h1, h2⟩
  · split
    · exact ⟨h1, h2⟩
    · split
      · exact ⟨h1, h2⟩
      · split
        · constructor <;> simp_all <;> split <;> omega
        · exact ⟨h1, h2⟩

/-- Claim C9: for every snapshot stream the controller keeps the limit inside
`[MinWorkers, MaxWorkers]`: the initial limit computed by `convertFiles`
(after the `NewAdaptiveLimiter` clamp) is inside the bounds, decrements
happen only above `MinWorkers` and increments only below `MaxWorkers`, so
the limit after any snapshot prefix stays inside the bounds. -/
theorem adaptiveController_bounds (cfg : AdaptiveWorkerConfig)
    (snaps : List ResourceSnapshot)
    (hmin : 1 ≤ cfg.minWorkers) (hminmax : cfg.minWorkers ≤ cfg.maxWorkers) :
    cfg.minWorkers ≤ (newAdaptiveLimiter (videoAdaptiveInitialLimit cfg)).limit ∧
    (newAdaptiveLimiter (videoAdaptiveInitialLimit cfg)).limit ≤ cfg.maxWorkers ∧
    cfg.minWorkers ≤
      (runAdaptiveController cfg (newAdaptiveLimiter (videoAdaptiveInitialLimit cfg)).limit snaps).limit ∧
    (runAdaptiveController cfg (newAdaptiveLimiter (videoAdaptiveInitialLimit cfg)).limit snaps).limit
      ≤ cfg.maxWorkers := by
  have hinit : (newAdaptiveLimiter (videoAdaptiveInitialLimit cfg)).limit = cfg.minWorkers := by
    simp only [newAdaptiveLimiter, videoAdaptiveInitialLimit, videoAdaptiveMaxJobs]
    split <;> split <;> split <;> omega
  rw [hinit]
  refine ⟨le_refl _, hminmax, ?_⟩
  unfold runAdaptiveController
  split
  · exact ⟨le_refl _, hminmax⟩
  · have inv : ∀ (l : List ResourceSnapshot) (s : ControllerState),
        cfg.minWorkers ≤ s.limit → s.limit ≤ cfg.maxWorkers →
        cfg.minWorkers ≤ (l.foldl (controllerStep cfg) s).limit ∧
          (l.foldl (controllerStep cfg) s).limit ≤ cfg.maxWorkers := by
      intro l
      induction l with
      | nil => intro s a b; exact ⟨a, b⟩
      | cons snap rest ih =>
        intro s a b
        have h := controllerStep_bounds cfg s snap hmin a b
        exact ih _ h.1 h.2
    exact inv snaps _ (le_refl _) hminmax

/-- Witness for claim C9 at a concrete configuration and snapshot stream. -/
theorem adaptiveController_bounds_witness :
    (1 : Int) ≤ 1 ∧ (1 : Int) ≤ 3 ∧
    ((1 : Int) ≤ (newAdaptiveLimiter (videoAdaptiveInitialLimit
        { minWorkers := 1, maxWorkers := 3, cpuHigh := 80, cpuLow := 40, memLowPercent := 20 })).limit ∧
      (newAdaptiveLimiter (videoAdaptiveInitialLimit
        { minWorkers := 1, maxWorkers := 3, cpuHigh := 80, cpuLow := 40, memLowPercent := 20 })).limit ≤ 3 ∧
      (1 : Int) ≤ (runAdaptiveController
        { minWorkers := 1, maxWorkers := 3, cpuHigh := 80, cpuLow := 40, memLowPercent := 20 }
        (newAdaptiveLimiter (videoAdaptiveInitialLimit
          { minWorkers := 1, maxWorkers := 3, cpuHigh := 80, cpuLow := 40, memLowPercent := 20 })).limit
        [{ cpuPercent := 90, memAvailablePercent := 50, cpuMeasured := true, memMeasured := true },
         { cpuPercent := 20, memAvailablePercent := 80, cpuMeasured := true, memMeasured := true },
         { cpuPercent := 20, memAvailablePercent := 80, cpuMeasured := true, memMeasured := true }]).limit ∧
      (runAdaptiveController
        { minWorkers := 1, maxWorkers := 3, cpuHigh := 80, cpuLow := 40, memLowPercent := 20 }
        (newAdaptiveLimiter (videoAdaptiveInitialLimit
          { minWorkers := 1, maxWorkers := 3, cpuHigh := 80, cpuLow := 40, memLowPercent := 20 })).limit
        [{ cpuPercent := 90, memAvailablePercent := 50, cpuMeasured := true, memMeasured := true },
         { cpuPercent := 20, memAvailablePercent := 80, cpuMeasured := true, memMeasured := true },
         { cpuPercent := 20, memAvailablePercent := 80, cpuMeasured := true, memMeasured := true }]).limit ≤ 3) :=
  ⟨by decide, by decide,
    adaptiveController_bounds
      { minWorkers := 1, maxWorkers := 3, cpuHigh := 80, cpuLow := 40, memLowPercent := 20 }
      [{ cpuPercent := 90, memAvailablePercent := 50, cpuMeasured := true, memMeasured := true },
       { cpuPercent := 20, memAvailablePercent := 80, cpuMeasured := true, memMeasured := true },
       { cpuPercent := 20, memAvailablePercent := 80, cpuMeasured := true, memMeasured := true }]
      (by decide) (by decide)⟩

/-! ## Date resolver (`GetFileDate` / `isValidDate` in `utils.go`)

Dates are modelled as Unix timestamps (`Int` seconds).  Each metadata source
(`mdls`, `magick identify`, `ffprobe`, `os.Stat`) is an external command; its
outcome is a field of `DateSources` (`none` = the command failed or its
output did not parse). -/

/-- Unix timestamp of 1990-01-01T00:00:00Z, the `minDate` of `isValidDate`. -/
def minValidDate : Int := 631152000

/-- Model of `isValidDate`: rejects dates after `now` and before 1990. -/
def isValidDate (now date : Int) : Bool :=
  !decide (now < date) && !decide (date < minValidDate)

structure DateSources where
  macMetadataDate : Option Int
  imageMetadataDate : Option Int
  videoMetadataDate : Option Int
  modTime : Option Int
  deriving Repr

/-- Fallback 4 of `GetFileDate`: the file modification time, accepted only
if valid, otherwise an error (never the current time). -/
def getFileDateStep4 (now : Int) (ds : DateSources) : Except String Int :=
  match ds.modTime with
  | none => Except.error "stat failed"
  | some m =>
    if isValidDate now m then Except.ok m
    else Except.error "no valid date found for file"

/-- Source 3 of `GetFileDate`: video container creation time. -/
def getFileDateStep3 (now : Int) (ds : DateSources) : Except String Int :=
  match ds.videoMetadataDate with
  | some d => if isValidDate now d then Except.ok d else getFileDateStep4 now ds
  | none => getFileDateStep4 now ds

/-- Source 2 of `GetFileDate`: photo metadata fields. -/
def getFileDateStep2 (now : Int) (ds : DateSources) : Except String Int :=
  match ds.imageMetadataDate with
  | some d => if isValidDate now d then Except.ok d else getFileDateStep3 now ds
  | none => getFileDateStep3 now ds

/-- Model of `GetFileDate`: sources in order (macOS metadata, photo
metadata, video metadata, modification time); a source whose date is out of
range is treated as not found. -/
def getFileDate (now : Int) (ds : DateSources) : Except String Int :=
  match ds.macMetadataDate with
  | some d => if isValidDate now d then Except.ok d else getFileDateStep2 now ds
  | none => getFileDateStep2 now ds

/-- Restatement of the claim's words: the first source, in resolver order,
that yields a date inside the closed interval `[1990-01-01, now]`. -/
def firstValidSource (now : Int) (ds : DateSources) : Option Int :=
  ([ds.macMetadataDate, ds.imageMetadataDate, ds.videoMetadataDate, ds.modTime].filterMap id).find?
    (fun d => isValidDate now d)

/-- Forgets which error `GetFileDate` produced. -/
def exceptToOption : Except String Int → Option Int
  | .ok d => some d
  | .error _ => none

theorem getFileDateStep4_eq (now : Int) (ds : DateSources) :
    exceptToOption (getFileDateStep4 now ds) =
      (([ds.modTime] : List (Option Int)).filterMap id).find? (fun d => isValidDate now d) := by
  cases h : ds.modTime with
  | none => simp [getFileDateStep4, h, exceptToOption]
  | some m =>
    by_cases hm : isValidDate now m = true <;>
      simp [getFileDateStep4, h, hm, exceptToOption]

theorem getFileDateStep3_eq (now : Int) (ds : DateSources) :
    exceptToOption (getFileDateStep3 now ds) =
      (([ds.videoMetadataDate, ds.modTime] : List (Option Int)).filterMap id).find?
        (fun d => isValidDate now d) := by
  cases h : ds.videoMetadataDate with
  | none => simpa [getFileDateStep3, h] using getFileDateStep4_eq now ds
  | some d =>
    by_cases hd : isValidDate now d = true <;>
      simpa [getFileDateStep3, h, hd, exceptToOption] using getFileDateStep4_eq now ds

theorem getFileDateStep2_eq (now : Int) (ds : DateSources) :
    exceptToOption (getFileDateStep2 now ds) =
      (([ds.imageMetadataDate, ds.videoMetadataDate, ds.modTime] : List (Option Int)).filterMap id).find?
        (fun d => isValidDate now d) := by
  cases h : ds.imageMetadataDate with
  | none => simpa [getFileDateStep2, h] using getFileDateStep3_eq now ds
  | some d =>
    by_cases hd : isValidDate now d = true <;>
      simpa [getFileDateStep2, h, hd, exceptToOption] using getFileDateStep3_eq now ds

theorem getFileDate_eq (now : Int) (ds : DateSources) :
    exceptToOption (getFileDate now ds) = firstValidSource now ds := by
  cases h : ds.macMetadataDate with
  | none => simpa [getFileDate, h, firstValidSource] using getFileDateStep2_eq now ds
  | some d =>
    by_cases hd : isValidDate now d = true <;>
      simpa [getFileDate, h, hd, exceptToOption, firstValidSource] using getFileDateStep2_eq now ds

/-- Claim C7: the date resolver returns exactly the first source (in the
order macOS metadata, photo metadata, video metadata, modification time)
yielding a date inside `[1990-01-01, now]`; if no source yields a valid
date it returns an error, and a returned date is never out of range. -/
theorem getFileDate_first_valid_source (now : Int) (ds : DateSources) :
    exceptToOption (getFileDate now ds) = firstValidSource now ds ∧
    (∀ d, getFileDate now ds = Except.ok d → minValidDate ≤ d ∧ d ≤ now) := by
  refine ⟨getFileDate_eq now ds, ?_⟩
  intro d h
  have h1 : firstValidSource now ds = some d := by
    rw [← getFileDate_eq now ds, h]; rfl
  have h2 := List.find?_some h1
  simp only [isValidDate, Bool.and_eq_true, Bool.not_eq_true', decide_eq_false_iff_not] at h2
  omega

/-- Witness for claim C7 at a concrete resolver outcome: the macOS source
is absent, the photo metadata yields a valid 2017 date, and the fallbacks
are not reached. -/
theorem getFileDate_first_valid_source_witness :
    exceptToOption (getFileDate 1700000000
        { macMetadataDate := none, imageMetadataDate := some 1500000000,
          videoMetadataDate := none, modTime := some 900000000 }) =
      firstValidSource 1700000000
        { macMetadataDate := none, imageMetadataDate := some 1500000000,
          videoMetadataDate := none, modTime := some 900000000 } ∧
    (∀ d, getFileDate 1700000000
        { macMetadataDate := none, imageMetadataDate := some 1500000000,
          videoMetadataDate := none, modTime := some 900000000 } = Except.ok d →
      minValidDate ≤ d ∧ d ≤ 1700000000) :=
  getFileDate_first_valid_source 1700000000
    { macMetadataDate := none, imageMetadataDate := some 1500000000,
      videoMetadataDate := none, modTime := some 900000000 }

/-! ## File-system model

The destination tree is a finite association list from paths to file data.
`FileData.corrupt` is the outcome of the external decoder parse (`magick
identify` / `ffprobe`) on that file's content; `markerPid` is the process id
recorded in a `.processing` marker (`none` when the content has no
parseable `PID:` line). -/

structure FileData where
  size : Nat
  corrupt : Bool := false
  markerPid : Option Int := none
  deriving Repr, DecidableEq

/-- Finite file-system: association list from path to file data. -/
abbrev FS := List (String × FileData)

/-- Model of `os.Stat`. -/
def statFS (fs : FS) (p : String) : Option FileData :=
  (fs.find? (fun e => e.1 == p)).map Prod.snd

/-- Model of `os.Remove` (removing an absent path is the identity). -/
def removeFS (fs : FS) (p : String) : FS :=
  fs.filter (fun e => e.1 != p)

/-- Model of writing a file (used for markers and encoder outputs). -/
def writeFS (fs : FS) (p : String) (d : FileData) : FS :=
  (p, d) :: removeFS fs p

/-- Model of `os.Rename` (atomic move). -/
def renameFS (fs : FS) (src dst : String) : FS :=
  match statFS fs src with
  | none => fs
  | some d => writeFS (removeFS fs src) dst d

theorem statFS_removeFS_self (fs : FS) (p : String) :
    statFS (removeFS fs p) p = none := by
  induction fs with
  | nil => rfl
  | cons e t ih =>
    by_cases h : e.1 = p
    · simpa [removeFS, List.filter_cons, h] using ih
    · have h1 : (e.1 != p) = true := by simp [h]
      have h2 : (e.1 == p) = false := by simp [h]
      simp only [removeFS, List.filter_cons, h1, if_true]
      simpa [statFS, List.find?_cons, h2, removeFS] using ih

theorem statFS_removeFS_ne (fs : FS) (p q : String) (h : p ≠ q) :
    statFS (removeFS fs q) p = statFS fs p := by
  induction fs with
  | nil => rfl
  | cons e t ih =>
    by_cases he : e.1 = q
    · have h1 : (e.1 != q) = false := by simp [he]
      have h2 : (e.1 == p) = false := by
        simp only [beq_eq_false_iff_ne, ne_eq]
        intro hc
        exact h (hc ▸ he)
      simp only [removeFS, List.filter_cons, h1] at *
      simpa [statFS, List.find?_cons, h2] using ih
    · have h1 : (e.1 != q) = true := by simp [he]
      simp only [removeFS, List.filter_cons, h1, if_true] at *
      cases hp : (e.1 == p) with
      | true => simp [statFS, List.find?_cons, hp]
      | false => simpa [statFS, List.find?_cons, hp] using ih

theorem statFS_writeFS_self (fs : FS) (p : String) (d : FileData) :
    statFS (writeFS fs p d) p = some d := by
  simp [writeFS, statFS, List.find?_cons]

theorem statFS_writeFS_ne (fs : FS) (p q : String) (d : FileData) (h : p ≠ q) :
    statFS (writeFS fs q d) p = statFS fs p := by
  have hqp : (q == p) = false := by
    simp only [beq_eq_false_iff_ne, ne_eq]
    intro hc
    exact h hc.symm
  calc statFS (writeFS fs q d) p = statFS (removeFS fs q) p := by
        simp [writeFS, statFS, List.find?_cons, hqp]
    _ = statFS fs p := statFS_removeFS_ne fs p q h

/-! ## Output verification (`security.go`)

`SecurityChecker` carries the configured minimum size ratios.  The Go code
stores them as `float64`; they are `Rat` here and the `int64` truncation of
`float64(size) * ratio` is modelled with `Rat.floor`. -/

structure SecurityChecker where
  minOutputSizeRatio : Rat
  minOutputSizeRatioAVIF : Rat
  minOutputSizeRatioWebP : Rat
  deriving Repr

/-- Lower-casing a string, for `strings.ToLower`. -/
def strToLower (s : String) : String :=
  String.mk (s.data.map Char.toLower)

/-- Ratio selection of `VerifyOutputFile`: format-specific ratio for photos,
generic ratio otherwise. -/
def verifyRatioFor (s : SecurityChecker) (fileType outputFormat : String) : Rat :=
  if fileType == "photo" then
    if strToLower outputFormat == "avif" then s.minOutputSizeRatioAVIF
    else if strToLower outputFormat == "webp" then s.minOutputSizeRatioWebP
    else s.minOutputSizeRatio
  else s.minOutputSizeRatio

/-- Model of `verifyImageIntegrity`: run the decoder parse; on failure the
file is removed and an error returned. -/
def verifyImageIntegrity (fs : FS) (imagePath : String) : FS × Option String :=
  match statFS fs imagePath with
  | none => (removeFS fs imagePath, some "image is corrupted")
  | some i =>
    if i.corrupt then (removeFS fs imagePath, some "image is corrupted")
    else (fs, none)

/-- Model of `verifyVideoIntegrity`: same shape as the image check. -/
def verifyVideoIntegrity (fs : FS) (videoPath : String) : FS × Option String :=
  match statFS fs videoPath with
  | none => (removeFS fs videoPath, some "video is corrupted")
  | some i =>
    if i.corrupt then (removeFS fs videoPath, some "video is corrupted")
    else (fs, none)

/-- Model of `VerifyOutputFile`: existence, non-emptiness, minimum size
ratio against the input, then the kind-specific decoder parse.  The empty,
too-small and parse-failure cases remove the output; the missing-output and
missing-input cases do not touch the file system. -/
def verifyOutputFile (s : SecurityChecker) (fs : FS)
    (inputPath outputPath fileType outputFormat : String) : FS × Option String :=
  match statFS fs outputPath with
  | none => (fs, some "output file does not exist")
  | some outInfo =>
    if outInfo.size == 0 then
      (removeFS fs outputPath, some "output file is empty")
    else
      match statFS fs inputPath with
      | none => (fs, some "failed to stat input file")
      | some inInfo =>
        let minSize : Int := ((inInfo.size : Rat) * verifyRatioFor s fileType outputFormat).floor
        if (outInfo.size : Int) < minSize then
          (removeFS fs outputPath, some "output file too small")
        else
          if fileType == "photo" then verifyImageIntegrity fs outputPath
          else if fileType == "video" then verifyVideoIntegrity fs outputPath
          else (fs, some "unknown file type")

/-- Failure condition of claim C6, in the claim's own terms: the output is
missing, empty, smaller than `ratio(format)` times the input size (the
`int64` truncation of the product, as computed by the code), or fails the
decoder parse. -/
def verifyFailCondition (s : SecurityChecker) (fs : FS)
    (inputPath outputPath fileType outputFormat : String) : Bool :=
  match statFS fs outputPath with
  | none => true
  | some o =>
    o.size == 0 ||
    (match statFS fs inputPath with
     | some i =>
       decide ((o.size : Int) < ((i.size : Rat) * verifyRatioFor s fileType outputFormat).floor)
     | none => false) ||
    o.corrupt

/-- Claim C6 as stated, at one instance: the verifier errors exactly on the
four listed conditions, and every failing case leaves no output on disk. -/
def verifyOutputClaim (s : SecurityChecker) (fs : FS)
    (inputPath outputPath fileType outputFormat : String) : Prop :=
  ((verifyOutputFile s fs inputPath outputPath fileType outputFormat).2.isSome =
      verifyFailCondition s fs inputPath outputPath fileType outputFormat) ∧
  ((verifyOutputFile s fs inputPath outputPath fileType outputFormat).2.isSome = true →
    statFS (verifyOutputFile s fs inputPath outputPath fileType outputFormat).1 outputPath = none)

/-- Default security checker of `NewConfig` (`0.005`, `0.001`, `0.003`). -/
def defaultChecker : SecurityChecker :=
  { minOutputSizeRatio := (5 : Rat)/1000
    minOutputSizeRatioAVIF := (1 : Rat)/1000
    minOutputSizeRatioWebP := (3 : Rat)/1000 }

/-- Claim C6 counterexample: with a healthy 5-byte output on disk and the
input path absent, `VerifyOutputFile` returns an error although none of the
four listed conditions holds, and the output is not deleted. -/
theorem verifyOutputFile_input_missing_cx :
    (verifyOutputFile defaultChecker [("out.avif", { size := 5 })]
        "in.jpg" "out.avif" "photo" "avif").2.isSome = true ∧
    verifyFailCondition defaultChecker [("out.avif", { size := 5 })]
        "in.jpg" "out.avif" "photo" "avif" = false ∧
    statFS (verifyOutputFile defaultChecker [("out.avif", { size := 5 })]
        "in.jpg" "out.avif" "photo" "avif").1 "out.avif" = some { size := 5 } ∧
    ¬ verifyOutputClaim defaultChecker [("out.avif", { size := 5 })]
        "in.jpg" "out.avif" "photo" "avif" := by
  refine ⟨by decide, by decide, by decide, ?_⟩
  intro h
  have h1 := h.1
  revert h1
  decide

/-- Claim C6 amended: provided the input file can be statted and the kind is
photo or video, `VerifyOutputFile` errors exactly when the output is
missing, empty, below the size-ratio floor, or fails the decoder parse, and
in every failing case the output is gone from disk when the error is
returned. -/
theorem verifyOutputFile_spec (s : SecurityChecker) (fs : FS)
    (inputPath outputPath fileType outputFormat : String) (inInfo : FileData)
    (hin : statFS fs inputPath = some inInfo)
    (hkind : fileType = "photo" ∨ fileType = "video") :
    verifyOutputClaim s fs inputPath outputPath fileType outputFormat := by
  unfold verifyOutputClaim verifyOutputFile verifyFailCondition
  rw [hin]
  cases hout : statFS fs outputPath with
  | none => simp [hout]
  | some o =>
    by_cases hempty : o.size = 0
    · simp [hempty, statFS_removeFS_self]
    · have hne : (o.size == 0) = false := by simp [hempty]
      by_cases hsmall :
          (o.size : Int) < ((inInfo.size : Rat) * verifyRatioFor s fileType outputFormat).floor
      · simp [hne, hsmall, statFS_removeFS_self]
      · rcases hkind with hk | hk <;>
          subst hk <;>
          by_cases hc : o.corrupt <;>
          simp [hne, hsmall, hout, verifyImageIntegrity, verifyVideoIntegrity, hc,
            statFS_removeFS_self]

/-- Witness for the amended claim C6 on a concrete corrupt output. -/
theorem verifyOutputFile_spec_witness :
    verifyOutputClaim defaultChecker
      [("in.jpg", { size := 1000 }), ("out.avif", { size := 500, corrupt := true })]
      "in.jpg" "out.avif" "photo" "avif" :=
  verifyOutputFile_spec defaultChecker
    [("in.jpg", { size := 1000 }), ("out.avif", { size := 500, corrupt := true })]
    "in.jpg" "out.avif" "photo" "avif" { size := 1000 } (by decide) (Or.inl rfl)

/-! ## Guarded delete (`SafeDelete` and its call sites)

`SafeDelete(filePath, outputPath)` re-stats the published output and only
unlinks the original when the output exists with size at least 1000 bytes.
Both call sites (`convertImage`, `convertVideo`) treat a `SafeDelete` error
as a warning and return success for the file. -/

/-- Model of `SafeDelete`. -/
def safeDelete (fs : FS) (filePath outputPath : String) : FS × Option String :=
  match statFS fs outputPath with
  | none => (fs, some "cannot verify output file before deletion")
  | some outInfo =>
    if outInfo.size < 1000 then
      (fs, some "deletion cancelled for safety: output file too small")
    else
      match statFS fs filePath with
      | none => (fs, some "failed to delete original file")
      | some _ => (removeFS fs filePath, none)

/-- Call-site wrapper (`video.go` lines 292–299, and the same block in
`convertImage`): with `keepOriginals = false` run `SafeDelete`; an error is
logged as a warning (`true` in the second component) and execution
continues either way. -/
def safeDeleteTail (keepOriginals : Bool) (fs : FS) (inputPath outputPath : String) :
    FS × Bool :=
  if keepOriginals then (fs, false)
  else
    match safeDelete fs inputPath outputPath with
    | (fs', some _) => (fs', true)
    | (fs', none) => (fs', false)

/-- Claim C4: with `keep_originals = false` the original is unlinked exactly
when the re-statted published output exists with size at least 1000 bytes;
when that predicate fails, nothing is deleted and only a warning is
raised (the pipeline continues). -/
theorem safeDelete_guarded (fs : FS) (inputPath outputPath : String) (ii : FileData)
    (hin : statFS fs inputPath = some ii) :
    (statFS (safeDeleteTail false fs inputPath outputPath).1 inputPath = none ↔
      ∃ o, statFS fs outputPath = some o ∧ 1000 ≤ o.size) ∧
    ((∀ o, statFS fs outputPath = some o → o.size < 1000) →
      (safeDeleteTail false fs inputPath outputPath).1 = fs ∧
        (safeDeleteTail false fs inputPath outputPath).2 = true) := by
  unfold safeDeleteTail safeDelete
  rw [hin]
  cases hout : statFS fs outputPath with
  | none => simp [hin]
  | some o =>
    by_cases hsize : o.size < 1000
    · constructor
      · simp only [Bool.false_eq_true, if_false, hsize, if_true]
        simp [hin, hout]
        omega
      · intro _
        simp [hsize]
    · constructor
      · simp only [Bool.false_eq_true, if_false, hsize, if_false]
        simp [statFS_removeFS_self, hout]
        omega
      · intro hall
        have := hall o rfl
        omega

/-- Witness for claim C4: a 1500-byte output lets the original be deleted;
the theorem's hypotheses hold at this input. -/
theorem safeDelete_guarded_witness :
    (statFS (safeDeleteTail false [("orig.mov", { size := 9000 }), ("out.mp4", { size := 1500 })]
        "orig.mov" "out.mp4").1 "orig.mov" = none ↔
      ∃ o, statFS [("orig.mov", { size := 9000 }), ("out.mp4", { size := 1500 })] "out.mp4" =
          some o ∧ 1000 ≤ o.size) ∧
    ((∀ o, statFS [("orig.mov", { size := 9000 }), ("out.mp4", { size := 1500 })] "out.mp4" =
          some o → o.size < 1000) →
      (safeDeleteTail false [("orig.mov", { size := 9000 }), ("out.mp4", { size := 1500 })]
          "orig.mov" "out.mp4").1 =
        [("orig.mov", { size := 9000 }), ("out.mp4", { size := 1500 })] ∧
        (safeDeleteTail false [("orig.mov", { size := 9000 }), ("out.mp4", { size := 1500 })]
            "orig.mov" "out.mp4").2 = true) :=
  safeDelete_guarded [("orig.mov", { size := 9000 }), ("out.mp4", { size := 1500 })]
    "orig.mov" "out.mp4" { size := 9000 } (by decide)

/-! ## Recovery (`CleanupAbandonedFiles`, `FindAbandonedMarkers`,
`performRecovery`, `verifyExistingFiles`)

Process liveness (`syscall.Kill(pid, 0)`) is an oracle `alive : Int → Bool`.
The walks visit each file entry once; a per-path decision depends only on
that file's own data, so the walk is a structural recursion over the
association list. -/

/-- Suffix test, for `strings.HasSuffix`. -/
def strEndsWith (s pat : String) : Bool :=
  pat.data.isSuffixOf s.data

/-- Model of `processExists` (`process_check_unix.go`): non-positive pids do
not exist; otherwise ask the platform oracle. -/
def processExists (alive : Int → Bool) (pid : Int) : Bool :=
  if pid ≤ 0 then false else alive pid

/-- Marker-staleness decision of `isMarkerAbandoned` on one file's data: an
unparseable `PID:` line or a dead owner makes the marker abandoned. -/
def isMarkerAbandonedData (alive : Int → Bool) (i : FileData) : Bool :=
  match i.markerPid with
  | none => true
  | some pid => !processExists alive pid

/-- Model of `CleanupAbandonedFiles`: walk the destination, removing every
`*.tmp` file and every abandoned `*.processing` marker.  Nothing is
counted. -/
def cleanupAbandonedFiles (alive : Int → Bool) : FS → FS
  | [] => []
  | e :: rest =>
    if strEndsWith e.1 ".tmp" then cleanupAbandonedFiles alive rest
    else if strEndsWith e.1 ".processing" && isMarkerAbandonedData alive e.2 then
      cleanupAbandonedFiles alive rest
    else e :: cleanupAbandonedFiles alive rest

/-- Model of `FindAbandonedMarkers`: paths of abandoned `.processing`
files. -/
def findAbandonedMarkers (alive : Int → Bool) (fs : FS) : List String :=
  (fs.filter (fun e => strEndsWith e.1 ".processing" && isMarkerAbandonedData alive e.2)).map
    Prod.fst

/-- Marker-removal loop of `performRecovery`: each marker is removed and,
on success, `cleanedFiles` is incremented. -/
def removeMarkersCount : FS → List String → FS × Nat
  | fs, [] => (fs, 0)
  | fs, m :: rest =>
    let r := removeMarkersCount (removeFS fs m) rest
    (r.1, r.2 + 1)

/-- Photo branch condition of `verifyExistingFiles`: lowered path ends in
`.avif` or `.webp`. -/
def photoOutputCond (p : String) : Bool :=
  strEndsWith (strToLower p) ".avif" || strEndsWith (strToLower p) ".webp"

/-- Video branch condition of `verifyExistingFiles`: lowered path ends in
`.mp4` and contains an underscore. -/
def videoOutputCond (p : String) : Bool :=
  strEndsWith (strToLower p) ".mp4" && (strToLower p).data.contains '_'

/-- Test of `IsFileCorrupted` on a present file: empty or failing the decoder
parse. -/
def isFileCorruptedData (i : FileData) : Bool :=
  i.size == 0 || i.corrupt

/-- Decision of `verifyExistingFiles` for one walked file: whether it stays
on disk and the increments to `recoveredFiles` and `verifiedFiles`.  The
photo and video branches run in sequence as in the Go code (a photo
removal would make the video branch see a missing, hence corrupted,
file; no real path satisfies both conditions). -/
def verifyEntry (e : String × FileData) : Bool × Nat × Nat :=
  let r1 :=
    if photoOutputCond e.1 then
      if isFileCorruptedData e.2 then (false, 1, 0) else (true, 0, 1)
    else (true, 0, 0)
  if videoOutputCond e.1 then
    if r1.1 then
      if isFileCorruptedData e.2 then (false, r1.2.1 + 1, r1.2.2)
      else (true, r1.2.1, r1.2.2 + 1)
    else (false, r1.2.1 + 1, r1.2.2)
  else r1

/-- Model of `verifyExistingFiles`: walk every file, returning the surviving
tree and the `recoveredFiles` / `verifiedFiles` increments. -/
def verifyExistingFiles : FS → FS × Nat × Nat
  | [] => ([], 0, 0)
  | e :: rest =>
    let r := verifyEntry e
    let w := verifyExistingFiles rest
    ((if r.1 then e :: w.1 else w.1), r.2.1 + w.2.1, r.2.2 + w.2.2)

/-- Model of `performRecovery` (`converter.go`): cleanup of abandoned files,
then the abandoned-marker scan with its `cleanedFiles` counting, then the
verification walk.  Result: final tree, `cleaned`, `recovered`,
`verified`. -/
def performRecovery (alive : Int → Bool) (fs : FS) : FS × Nat × Nat × Nat :=
  let fs1 := cleanupAbandonedFiles alive fs
  let markers := findAbandonedMarkers alive fs1
  let r2 := removeMarkersCount fs1 markers
  let w := verifyExistingFiles r2.1
  (w.1, r2.2, w.2.1, w.2.2)

/-- Entry cleanliness after recovery: not a temp file and not a stale
marker. -/
def entryClean (alive : Int → Bool) (e : String × FileData) : Bool :=
  !strEndsWith e.1 ".tmp" &&
    !(strEndsWith e.1 ".processing" && isMarkerAbandonedData alive e.2)

theorem cleanupAbandonedFiles_clean (alive : Int → Bool) (fs : FS) :
    (cleanupAbandonedFiles alive fs).all (entryClean alive) = true := by
  induction fs with
  | nil => rfl
  | cons e rest ih =>
    by_cases h1 : strEndsWith e.1 ".tmp" = true
    · simpa [cleanupAbandonedFiles, h1] using ih
    · by_cases h2 : (strEndsWith e.1 ".processing" && isMarkerAbandonedData alive e.2) = true
      · simp only [cleanupAbandonedFiles, h1, Bool.false_eq_true, if_false, h2, if_true]
        exact ih
      · simp only [cleanupAbandonedFiles, h1, Bool.false_eq_true, if_false, h2, List.all_cons]
        refine (Bool.and_eq_true _ _).mpr ⟨?_, ih⟩
        simp only [entryClean, Bool.not_eq_true] at *
        rw [h1, h2]
        rfl

theorem findAbandonedMarkers_nil_of_clean (alive : Int → Bool) (fs : FS)
    (h : fs.all (entryClean alive) = true) :
    findAbandonedMarkers alive fs = [] := by
  unfold findAbandonedMarkers
  rw [List.map_eq_nil, List.filter_eq_nil]
  intro e he
  have := (List.all_eq_true.mp h) e he
  simp only [entryClean, Bool.and_eq_true, Bool.not_eq_true'] at this
  simp [this.2]

theorem verifyExistingFiles_mem (fs : FS) (e : String × FileData)
    (h : e ∈ (verifyExistingFiles fs).1) : e ∈ fs := by
  induction fs with
  | nil => cases h
  | cons x rest ih =>
    simp only [verifyExistingFiles] at h
    by_cases hk : (verifyEntry x).1 = true
    · rw [if_pos hk] at h
      rcases List.mem_cons.mp h with h | h
      · exact h ▸ List.mem_cons_self x rest
      · exact List.mem_cons_of_mem x (ih h)
    · rw [if_neg hk] at h
      exact List.mem_cons_of_mem x (ih h)

/-- Claim C2 counterexample: a destination holding an orphan temp file and
a `.processing` marker whose owner (pid 99) is dead.  Recovery removes both
files, but the final `cleaned` counter is 0, not at least 2:
`CleanupAbandonedFiles` deletes without counting, and the marker scan that
does count runs afterwards and finds nothing. -/
theorem performRecovery_orphan_cleaned_zero :
    (performRecovery (fun _ => false)
        [("2024-03-15_a_001.avif.tmp", { size := 100 }),
         ("2024-03-15_a_001.avif.processing", { size := 50, markerPid := some 99 })]).1 = [] ∧
    (performRecovery (fun _ => false)
        [("2024-03-15_a_001.avif.tmp", { size := 100 }),
         ("2024-03-15_a_001.avif.processing", { size := 50, markerPid := some 99 })]).2.1 = 0 ∧
    ¬ 2 ≤ (performRecovery (fun _ => false)
        [("2024-03-15_a_001.avif.tmp", { size := 100 }),
         ("2024-03-15_a_001.avif.processing", { size := 50, markerPid := some 99 })]).2.1 := by
  refine ⟨?_, ?_, ?_⟩ <;> decide

/-- Claim C2 amended: the recovery phase does remove every orphan `.tmp`
file and every stale `.processing` marker from the destination, but it
counts none of them: deletions happen in `CleanupAbandonedFiles`, which
never touches the `cleaned` counter, and the counting scan that follows
finds no marker left, so (all removals succeeding) the run's final
`cleaned` counter is 0. -/
theorem performRecovery_removes_stale_without_counting (alive : Int → Bool) (fs : FS) :
    (performRecovery alive fs).1.all (entryClean alive) = true ∧
    (performRecovery alive fs).2.1 = 0 := by
  have h1 := cleanupAbandonedFiles_clean alive fs
  have h2 := findAbandonedMarkers_nil_of_clean alive _ h1
  constructor
  · rw [List.all_eq_true]
    intro e he
    have hmem : e ∈ cleanupAbandonedFiles alive fs := by
      apply verifyExistingFiles_mem
      simpa [performRecovery, h2, removeMarkersCount] using he
    exact List.all_eq_true.mp h1 e hmem
  · simp [performRecovery, h2, removeMarkersCount]

/-! ## Claim C8: which files the verification walk checks -/

/-- Date-stamp pattern `YYYY-MM-DD_` at the head of a character list, from
the claim's "canonical date prefix of published filenames". -/
def dateStampAt : List Char → Bool
  | d1 :: d2 :: d3 :: d4 :: '-' :: m1 :: m2 :: '-' :: a1 :: a2 :: '_' :: _ =>
    d1.isDigit && d2.isDigit && d3.isDigit && d4.isDigit &&
      m1.isDigit && m2.isDigit && a1.isDigit && a2.isDigit
  | _ => false

/-- Whether a name embeds the date-stamp pattern anywhere. -/
def containsDateStamp : List Char → Bool
  | [] => false
  | c :: rest => dateStampAt (c :: rest) || containsDateStamp rest

/-- Submission condition of the verification walk: photo branch or video
branch. -/
def outputSubmitCond (p : String) : Bool :=
  photoOutputCond p || videoOutputCond p

theorem photoOutputCond_videoOutputCond_exclusive (p : String) :
    photoOutputCond p = true → videoOutputCond p = false := by
  unfold photoOutputCond videoOutputCond strEndsWith
  have ha : (".avif" : String).data = ['.', 'a', 'v', 'i', 'f'] := rfl
  have hw : (".webp" : String).data = ['.', 'w', 'e', 'b', 'p'] := rfl
  have hm : (".mp4" : String).data = ['.', 'm', 'p', '4'] := rfl
  rw [ha, hw, hm]
  simp only [List.isSuffixOf]
  have ra : (['.', 'a', 'v', 'i', 'f'] : List Char).reverse = ['f', 'i', 'v', 'a', '.'] := rfl
  have rw2 : (['.', 'w', 'e', 'b', 'p'] : List Char).reverse = ['p', 'b', 'e', 'w', '.'] := rfl
  have rm : (['.', 'm', 'p', '4'] : List Char).reverse = ['4', 'p', 'm', '.'] := rfl
  rw [ra, rw2, rm]
  generalize (strToLower p).data.reverse = r
  cases r with
  | nil => intro h; simp [List.isPrefixOf] at h
  | cons c r' =>
    intro h
    simp only [List.isPrefixOf, Bool.or_eq_true, Bool.and_eq_true, beq_iff_eq] at h
    rcases h with ⟨hc, _⟩ | ⟨hc, _⟩ <;>
      subst hc <;>
      simp [List.isPrefixOf]

theorem verifyEntry_eq (e : String × FileData) :
    verifyEntry e =
      ((if outputSubmitCond e.1 && isFileCorruptedData e.2 then false else true),
        (if outputSubmitCond e.1 && isFileCorruptedData e.2 then 1 else 0),
        (if outputSubmitCond e.1 && !isFileCorruptedData e.2 then 1 else 0)) := by
  unfold verifyEntry outputSubmitCond
  by_cases hp : photoOutputCond e.1 = true
  · have hv := photoOutputCond_videoOutputCond_exclusive e.1 hp
    by_cases hc : isFileCorruptedData e.2 = true <;> simp [hp, hv, hc]
  · have hp' : photoOutputCond e.1 = false := by
      simpa using hp
    by_cases hvv : videoOutputCond e.1 = true <;>
      by_cases hc : isFileCorruptedData e.2 = true <;>
      simp [hp', hvv, hc]

/-- Claim C8 counterexample: `clip_1.mp4` (underscore but no `YYYY-MM-DD_`
date prefix) is submitted to the corruption check by the recovery walk:
being corrupt, it is deleted and `recovered` is incremented, although the
claim says only date-prefixed names are checked. -/
theorem verifyExisting_underscore_no_date_cx :
    videoOutputCond "clip_1.mp4" = true ∧
    containsDateStamp ("clip_1.mp4" : String).data = false ∧
    verifyExistingFiles [("clip_1.mp4", { size := 10, corrupt := true })] = ([], 1, 0) := by
  refine ⟨?_, ?_, ?_⟩ <;> decide

/-- Claim C8 amended: the recovery walk submits a file to the corruption
check iff its lowered path ends in `.avif`/`.webp` (photo branch) or ends
in `.mp4` and contains an underscore anywhere (video branch) — not the
canonical date-prefix pattern; every submitted corrupt file is deleted and
counted in `recovered`, every submitted healthy file is counted in
`verified`, and unsubmitted files are untouched. -/
theorem verifyExisting_video_condition (fs : FS) :
    (verifyExistingFiles fs).1 =
      fs.filter (fun e => !(outputSubmitCond e.1 && isFileCorruptedData e.2)) ∧
    (verifyExistingFiles fs).2.1 =
      (fs.filter (fun e => outputSubmitCond e.1 && isFileCorruptedData e.2)).length ∧
    (verifyExistingFiles fs).2.2 =
      (fs.filter (fun e => outputSubmitCond e.1 && !isFileCorruptedData e.2)).length := by
  induction fs with
  | nil => exact ⟨rfl, rfl, rfl⟩
  | cons e rest ih =>
    obtain ⟨ih1, ih2, ih3⟩ := ih
    by_cases hs : (outputSubmitCond e.1 && isFileCorruptedData e.2) = true
    · obtain ⟨h1, h2⟩ := Bool.and_eq_true _ _ |>.mp hs
      refine ⟨?_, ?_, ?_⟩ <;>
        simp [verifyExistingFiles, verifyEntry_eq, hs, h1, h2, List.filter_cons,
          ih1, ih2, ih3, Nat.add_comm]
    · by_cases hb : (outputSubmitCond e.1 && !isFileCorruptedData e.2) = true
      · obtain ⟨h1, h2⟩ := Bool.and_eq_true _ _ |>.mp hb
        have h2' : isFileCorruptedData e.2 = false := by simpa using h2
        refine ⟨?_, ?_, ?_⟩ <;>
          simp [verifyExistingFiles, verifyEntry_eq, hs, hb, h1, h2', List.filter_cons,
            ih1, ih2, ih3, Nat.add_comm]
      · have ho : outputSubmitCond e.1 = false := by
          by_cases hoo : outputSubmitCond e.1 = true
          · exfalso
            by_cases hcc : isFileCorruptedData e.2 = true
            · exact hs (by simp [hoo, hcc])
            · exact hb (by simp [hoo, hcc])
          · simpa using hoo
        refine ⟨?_, ?_, ?_⟩ <;>
          simp [verifyExistingFiles, verifyEntry_eq, ho, List.filter_cons, ih1, ih2, ih3]

/-! ## Destination filenames (`CleanFilename` in `utils.go`) -/

/-- Character class `[a-zA-Z0-9._-]` of the sanitizing regex. -/
def isAllowedNameChar (c : Char) : Bool :=
  c.isAlphanum || c == '.' || c == '_' || c == '-'

/-- First regex of `CleanFilename`: every disallowed character becomes
`_`. -/
def replaceDisallowed (cs : List Char) : List Char :=
  cs.map (fun c => if isAllowedNameChar c then c else '_')

/-- Second regex of `CleanFilename`: collapse runs of `_` (the flag records
whether the previously kept character was an underscore). -/
def collapseUnderscoresAux : Bool → List Char → List Char
  | _, [] => []
  | prevU, c :: rest =>
    if c == '_' then
      if prevU then collapseUnderscoresAux true rest
      else '_' :: collapseUnderscoresAux true rest
    else c :: collapseUnderscoresAux false rest

/-- Trim step `strings.Trim(cleanName, "_")`. -/
def trimUnderscores (cs : List Char) : List Char :=
  ((cs.dropWhile (fun c => c == '_')).reverse.dropWhile (fun c => c == '_')).reverse

/-- Zero-padded decimal of width `w` (`%03d`, and the date formatting). -/
def padNat (w n : Nat) : String :=
  let s := toString n
  String.mk (List.replicate (w - s.length) '0' ++ s.data)

/-- Calendar date as used by the destination planner. -/
structure CalDate where
  year : Nat
  month : Nat
  day : Nat
  deriving Repr, DecidableEq

/-- Go date format `2006-01-02`. -/
def formatDate (d : CalDate) : String :=
  padNat 4 d.year ++ "-" ++ padNat 2 d.month ++ "-" ++ padNat 2 d.day

/-- Model of `CleanFilename`: `<date>_<sanitized-stem>_<counter:3>.<ext>`. -/
def cleanFilename (filename extensionStr : String) (d : CalDate) (counter : Nat) : String :=
  let cleaned := trimUnderscores (collapseUnderscoresAux false (replaceDisallowed filename.data))
  formatDate d ++ "_" ++ String.mk cleaned ++ "_" ++ padNat 3 counter ++ "." ++ extensionStr

/-! ## Image pipeline (`convertImage` in the converter package)

One pipeline execution over the file-system model.  External effects are
parameters: `pid` is the current process id recorded in the marker, and
`encodeResult` is the file the `magick` invocation leaves at the temp path
(`none` = the encoder failed and wrote nothing). -/

/-- Marker file written by `CreateProcessingMarker` (content
`PID:…/Started:…/File:…`). -/
def markerFileData (pid : Int) : FileData :=
  { size := 1, corrupt := false, markerPid := some pid }

/-- Result of one pipeline execution: final tree, the path published by the
atomic rename (if any), the `skipped` / `recovered` increments, and whether
`convertImage` returned nil. -/
structure PipeResult where
  fs : FS
  published : Option String
  skippedInc : Nat
  recoveredInc : Nat
  ok : Bool
  deriving Repr, DecidableEq

/-- Deferred cleanup of the pipeline: remove the marker, and the temp file
if still present. -/
def deferredCleanup (fs : FS) (target : String) : FS :=
  removeFS (removeFS fs (target ++ ".processing")) (target ++ ".tmp")

/-- Encoding phase of `convertImage`, entered once the dedupe check falls
through: claim the marker, run the encoder, verify the temp file, rename it
onto the target, then the guarded delete; the deferred cleanup runs on
every exit. -/
def convertImageEncodePhase (sc : SecurityChecker) (keepOriginals : Bool)
    (photoFormat : String) (fs : FS) (inputPath target : String) (pid : Int)
    (encodeResult : Option FileData) (recInc : Nat) : PipeResult :=
  let fs1 := writeFS fs (target ++ ".processing") (markerFileData pid)
  match encodeResult with
  | none =>
    { fs := deferredCleanup fs1 target, published := none, skippedInc := 0,
      recoveredInc := recInc, ok := false }
  | some out =>
    let fs2 := writeFS fs1 (target ++ ".tmp") out
    let v := verifyOutputFile sc fs2 inputPath (target ++ ".tmp") "photo" photoFormat
    match v.2 with
    | some _ =>
      { fs := deferredCleanup v.1 target, published := none, skippedInc := 0,
        recoveredInc := recInc, ok := false }
    | none =>
      let fs3 := renameFS v.1 (target ++ ".tmp") target
      let fs4 := (safeDeleteTail keepOriginals fs3 inputPath target).1
      { fs := deferredCleanup fs4 target, published := some target, skippedInc := 0,
        recoveredInc := recInc, ok := true }

/-- Model of `convertImage` from the planned target path on: the
dedupe-or-recover check against an existing output, the dry-run exit, then
the encoding phase. -/
def convertImage (sc : SecurityChecker) (keepOriginals dryRun : Bool)
    (photoFormat : String) (fs : FS) (inputPath target : String) (pid : Int)
    (encodeResult : Option FileData) : PipeResult :=
  match statFS fs target with
  | some existing =>
    if !isFileCorruptedData existing then
      { fs := fs, published := none, skippedInc := 1, recoveredInc := 0, ok := true }
    else
      let fs' := removeFS fs target
      if dryRun then
        { fs := fs', published := none, skippedInc := 0, recoveredInc := 1, ok := true }
      else
        convertImageEncodePhase sc keepOriginals photoFormat fs' inputPath target pid
          encodeResult 1
  | none =>
    if dryRun then
      { fs := fs, published := none, skippedInc := 0, recoveredInc := 0, ok := true }
    else
      convertImageEncodePhase sc keepOriginals photoFormat fs inputPath target pid
        encodeResult 0

/-- Base filename of the C1/C5 scenarios: source stem `a`, photo format
`avif`, capture date 2024-03-15, counter 1. -/
def exampleTarget : String :=
  cleanFilename "a" "avif" { year := 2024, month := 3, day := 15 } 1

/-- Claim C1 counterexample: the planned target `2024-03-15_a_001.avif`
already exists (healthy) when a second source with the same stem runs; the
pipeline publishes nothing at all — in particular not the claimed variant
`2024-03-15_a_001_001.avif` — and skips instead. -/
theorem convertImage_existing_target_publishes_nothing :
    exampleTarget = "2024-03-15_a_001.avif" ∧
    statFS [(exampleTarget, { size := 5000 })] exampleTarget = some { size := 5000 } ∧
    (convertImage defaultChecker true false "avif" [(exampleTarget, { size := 5000 })]
        "a.jpg" exampleTarget 42 (some { size := 2000 })).published = none ∧
    (convertImage defaultChecker true false "avif" [(exampleTarget, { size := 5000 })]
        "a.jpg" exampleTarget 42 (some { size := 2000 })).published ≠
      some "2024-03-15_a_001_001.avif" := by
  refine ⟨?_, ?_, ?_, ?_⟩ <;> decide

/-- Claim C1 amended: `GetUniqueFilename` would probe `_NNN` variants, but
the pipeline never calls it: an execution whose planned target already
exists on disk publishes either nothing (the existing output is healthy and
the file is skipped) or the unchanged base name after deleting a corrupt
output — never a counter variant. -/
theorem convertImage_no_variant_names (sc : SecurityChecker)
    (keepOriginals dryRun : Bool) (photoFormat : String) (fs : FS)
    (inputPath target : String) (pid : Int) (encodeResult : Option FileData)
    (existing : FileData) (hex : statFS fs target = some existing) :
    (convertImage sc keepOriginals dryRun photoFormat fs inputPath target pid
        encodeResult).published = none ∨
    (convertImage sc keepOriginals dryRun photoFormat fs inputPath target pid
        encodeResult).published = some target := by
  unfold convertImage
  rw [hex]
  by_cases hc : isFileCorruptedData existing = true
  · simp only [hc]
    by_cases hd : dryRun = true
    · simp [hd]
    · have hd' : dryRun = false := by simpa using hd
      simp only [hd', Bool.false_eq_true, if_false, Bool.not_true]
      unfold convertImageEncodePhase
      cases encodeResult with
      | none => left; rfl
      | some out =>
        cases hv : (verifyOutputFile sc
            (writeFS (writeFS (removeFS fs target) (target ++ ".processing")
              (markerFileData pid)) (target ++ ".tmp") out)
            inputPath (target ++ ".tmp") "photo" photoFormat).2 with
        | none => simp [hv]
        | some e => simp [hv]
  · have hc' : isFileCorruptedData existing = false := by simpa using hc
    simp [hc']

/-- Witness for the amended claim C1: a corrupt existing target is deleted
and the execution republishes the base name itself. -/
theorem convertImage_no_variant_names_witness :
    (convertImage defaultChecker true false "avif"
        [("2024-03-15_a_001.avif", { size := 0 })]
        "a.jpg" "2024-03-15_a_001.avif" 42 (some { size := 2000 })).published = none ∨
    (convertImage defaultChecker true false "avif"
        [("2024-03-15_a_001.avif", { size := 0 })]
        "a.jpg" "2024-03-15_a_001.avif" 42 (some { size := 2000 })).published =
      some "2024-03-15_a_001.avif" :=
  convertImage_no_variant_names defaultChecker true false "avif"
    [("2024-03-15_a_001.avif", { size := 0 })]
    "a.jpg" "2024-03-15_a_001.avif" 42 (some { size := 2000 })
    { size := 0 } (by decide)

/-! ## Worker accounting (`convertFiles` worker loop) and claim C5 -/

/-- Run counters of `ConversionStats` touched by the worker loop. -/
structure RunStats where
  processed : Nat
  failed : Nat
  skipped : Nat
  recovered : Nat
  deriving Repr, DecidableEq

/-- One unit of work: the source path, the planned target, the recorded pid
and the encoder outcome for this file. -/
structure FileTask where
  inputPath : String
  target : String
  pid : Int
  encodeResult : Option FileData
  deriving Repr

/-- Worker body of `convertFiles`: run the pipeline on one file; a non-nil
error bumps `failed`, any nil return (including a skip) bumps
`processed`. -/
def workerStep (sc : SecurityChecker) (keepOriginals dryRun : Bool)
    (photoFormat : String) (acc : FS × RunStats) (t : FileTask) : FS × RunStats :=
  let r := convertImage sc keepOriginals dryRun photoFormat acc.1 t.inputPath t.target
    t.pid t.encodeResult
  let st1 : RunStats :=
    { acc.2 with
      skipped := acc.2.skipped + r.skippedInc
      recovered := acc.2.recovered + r.recoveredInc }
  if r.ok then (r.fs, { st1 with processed := st1.processed + 1 })
  else (r.fs, { st1 with failed := st1.failed + 1 })

/-- A photo pass: the workers drain the task list, starting from zeroed
counters. -/
def runFiles (sc : SecurityChecker) (keepOriginals dryRun : Bool)
    (photoFormat : String) (fs : FS) (tasks : List FileTask) : FS × RunStats :=
  tasks.foldl (workerStep sc keepOriginals dryRun photoFormat)
    (fs, { processed := 0, failed := 0, skipped := 0, recovered := 0 })

/-- Claim C5 counterexample: a second run over an unchanged tree (the
planned output exists and is healthy).  The file is skipped — but the
worker also counts the nil return as processed, so the report shows
`processed = 1, skipped = 1`, not the claimed `processed = 0`. -/
theorem second_run_processed_not_zero :
    (runFiles defaultChecker true false "avif" [(exampleTarget, { size := 5000 })]
        [{ inputPath := "a.jpg", target := exampleTarget, pid := 42,
           encodeResult := some { size := 2000 } }]).2 =
      { processed := 1, failed := 0, skipped := 1, recovered := 0 } ∧
    ¬ (runFiles defaultChecker true false "avif" [(exampleTarget, { size := 5000 })]
        [{ inputPath := "a.jpg", target := exampleTarget, pid := 42,
           encodeResult := some { size := 2000 } }]).2.processed = 0 := by
  refine ⟨?_, ?_⟩ <;> decide

/-- Claim C5 amended: when the planned output exists and passes the
integrity check the pipeline bumps `skipped` and stops before encoding,
leaving the tree unchanged; when it exists corrupt the pipeline bumps
`recovered` (never `skipped`) and re-encodes.  A skipped file is also
counted in `processed` by the worker, so a second run over an unchanged
tree reports `skipped` equal to the file count and `processed` equal to the
file count as well — not zero. -/
theorem dedupe_skip_and_recover (sc : SecurityChecker)
    (keepOriginals dryRun : Bool) (photoFormat : String) (fs : FS)
    (inputPath target : String) (pid : Int) (encodeResult : Option FileData)
    (existing : FileData) (hex : statFS fs target = some existing) :
    (isFileCorruptedData existing = false →
      convertImage sc keepOriginals dryRun photoFormat fs inputPath target pid
          encodeResult =
        { fs := fs, published := none, skippedInc := 1, recoveredInc := 0, ok := true }) ∧
    (isFileCorruptedData existing = true →
      (convertImage sc keepOriginals dryRun photoFormat fs inputPath target pid
          encodeResult).recoveredInc = 1 ∧
      (convertImage sc keepOriginals dryRun photoFormat fs inputPath target pid
          encodeResult).skippedInc = 0) ∧
    (isFileCorruptedData existing = false →
      ∀ st : RunStats,
        (workerStep sc keepOriginals dryRun photoFormat (fs, st)
            { inputPath := inputPath, target := target, pid := pid,
              encodeResult := encodeResult }).2 =
          { st with skipped := st.skipped + 1, processed := st.processed + 1 }) := by
  refine ⟨?_, ?_, ?_⟩
  · intro hc
    unfold convertImage
    rw [hex]
    simp only [hc, Bool.not_false, if_true]
  · intro hc
    unfold convertImage
    rw [hex]
    simp only [hc, Bool.not_true, Bool.false_eq_true, if_false]
    by_cases hd : dryRun = true
    · simp [hd]
    · have hd' : dryRun = false := by simpa using hd
      simp only [hd', Bool.false_eq_true, if_false, Bool.not_true]
      unfold convertImageEncodePhase
      cases encodeResult with
      | none => exact ⟨rfl, rfl⟩
      | some out =>
        cases hv : (verifyOutputFile sc
            (writeFS (writeFS (removeFS fs target) (target ++ ".processing")
              (markerFileData pid)) (target ++ ".tmp") out)
            inputPath (target ++ ".tmp") "photo" photoFormat).2 with
        | none => simp [hv]
        | some e => simp [hv]
  · intro hc st
    unfold workerStep
    have h1 : convertImage sc keepOriginals dryRun photoFormat fs inputPath target pid
        encodeResult =
        { fs := fs, published := none, skippedInc := 1, recoveredInc := 0, ok := true } := by
      unfold convertImage
      rw [hex]
      simp only [hc, Bool.not_false, if_true]
    simp [h1]

/-- Witness for the amended claim C5 at the one-file second-run instance. -/
theorem dedupe_skip_and_recover_witness :
    (isFileCorruptedData { size := 5000 } = false →
      convertImage defaultChecker true false "avif" [(exampleTarget, { size := 5000 })]
          "a.jpg" exampleTarget 42 (some { size := 2000 }) =
        { fs := [(exampleTarget, { size := 5000 })], published := none, skippedInc := 1,
          recoveredInc := 0, ok := true }) ∧
    (isFileCorruptedData { size := 5000 } = true →
      (convertImage defaultChecker true false "avif" [(exampleTarget, { size := 5000 })]
          "a.jpg" exampleTarget 42 (some { size := 2000 })).recoveredInc = 1 ∧
      (convertImage defaultChecker true false "avif" [(exampleTarget, { size := 5000 })]
          "a.jpg" exampleTarget 42 (some { size := 2000 })).skippedInc = 0) ∧
    (isFileCorruptedData { size := 5000 } = false →
      ∀ st : RunStats,
        (workerStep defaultChecker true false "avif"
            ([(exampleTarget, { size := 5000 })], st)
            { inputPath := "a.jpg", target := exampleTarget, pid := 42,
              encodeResult := some { size := 2000 } }).2 =
          { st with skipped := st.skipped + 1, processed := st.processed + 1 }) :=
  dedupe_skip_and_recover defaultChecker true false "avif"
    [(exampleTarget, { size := 5000 })] "a.jpg" exampleTarget 42
    (some { size := 2000 }) { size := 5000 } (by decide)

/-! ## Event ordering inside `convertVideo` (claim C3)

The observable steps of one video pipeline execution, in the order the Go
code performs them.  The marker claim is at line 205, the encoder run at
259, verification at 264, the rename at 269, the guarded delete at 293–299,
and the marker release is in the `defer` installed at 210, which runs when
the function returns — after the guarded delete. -/

inductive PipelineEvent where
  | claimMarker
  | encoderStart
  | encoderOk
  | verifyOk
  | renameTmp
  | guardedDelete
  | releaseMarker
  deriving Repr, DecidableEq

/-- Event trace of one `convertVideo` execution past the dedupe check,
parameterized by the encoder and verification outcomes.  The deferred
marker release closes every trace. -/
def convertVideoTrace (keepOriginals encodeOk verifyPass : Bool) : List PipelineEvent :=
  [PipelineEvent.claimMarker, PipelineEvent.encoderStart] ++
    (if encodeOk then
      [PipelineEvent.encoderOk] ++
        (if verifyPass then
          [PipelineEvent.verifyOk, PipelineEvent.renameTmp] ++
            (if keepOriginals then [] else [PipelineEvent.guardedDelete])
        else [])
    else []) ++
  [PipelineEvent.releaseMarker]

/-- Index of the first occurrence of an event in a trace. -/
def eventIdx (t : List PipelineEvent) (e : PipelineEvent) : Option Nat :=
  t.findIdx? (fun x => x == e)

/-- Event `a` happens before `b` in the trace: both occur and `a` first. -/
def happensBefore (t : List PipelineEvent) (a b : PipelineEvent) : Bool :=
  match eventIdx t a, eventIdx t b with
  | some i, some j => decide (i < j)
  | _, _ => false

/-- Claim C3 counterexample: the successful publishing execution with
`keep_originals = false`.  The guarded delete happens before the deferred
marker release, so "marker release happens-before guarded delete" fails on
this trace. -/
theorem convertVideo_release_after_delete :
    convertVideoTrace false true true =
      [PipelineEvent.claimMarker, PipelineEvent.encoderStart, PipelineEvent.encoderOk,
        PipelineEvent.verifyOk, PipelineEvent.renameTmp, PipelineEvent.guardedDelete,
        PipelineEvent.releaseMarker] ∧
    happensBefore (convertVideoTrace false true true)
      PipelineEvent.releaseMarker PipelineEvent.guardedDelete = false ∧
    happensBefore (convertVideoTrace false true true)
      PipelineEvent.guardedDelete PipelineEvent.releaseMarker = true := by
  refine ⟨?_, ?_, ?_⟩ <;> decide

/-- Claim C3 amended: within one publishing pipeline execution the marker
claim precedes the encoder start, encoder success precedes verification,
verification precedes the rename, and the rename precedes the marker
release; but the marker release happens after (not before) the guarded
delete, because the release sits in the deferred cleanup that runs on
function exit. -/
theorem convertVideo_event_ordering (keepOriginals encodeOk verifyPass : Bool)
    (henc : encodeOk = true) (hver : verifyPass = true) :
    happensBefore (convertVideoTrace keepOriginals encodeOk verifyPass)
      PipelineEvent.claimMarker PipelineEvent.encoderStart = true ∧
    happensBefore (convertVideoTrace keepOriginals encodeOk verifyPass)
      PipelineEvent.encoderOk PipelineEvent.verifyOk = true ∧
    happensBefore (convertVideoTrace keepOriginals encodeOk verifyPass)
      PipelineEvent.verifyOk PipelineEvent.renameTmp = true ∧
    happensBefore (convertVideoTrace keepOriginals encodeOk verifyPass)
      PipelineEvent.renameTmp PipelineEvent.releaseMarker = true ∧
    (keepOriginals = false →
      happensBefore (convertVideoTrace keepOriginals encodeOk verifyPass)
        PipelineEvent.guardedDelete PipelineEvent.releaseMarker = true) := by
  subst henc hver
  cases keepOriginals <;> refine ⟨?_, ?_, ?_, ?_, ?_⟩ <;> decide

/-- Witness for the amended claim C3 on the publishing, reaping trace. -/
theorem convertVideo_event_ordering_witness :
    happensBefore (convertVideoTrace false true true)
      PipelineEvent.claimMarker PipelineEvent.encoderStart = true ∧
    happensBefore (convertVideoTrace false true true)
      PipelineEvent.encoderOk PipelineEvent.verifyOk = true ∧
    happensBefore (convertVideoTrace false true true)
      PipelineEvent.verifyOk PipelineEvent.renameTmp = true ∧
    happensBefore (convertVideoTrace false true true)
      PipelineEvent.renameTmp PipelineEvent.releaseMarker = true ∧
    (false = false →
      happensBefore (convertVideoTrace false true true)
        PipelineEvent.guardedDelete PipelineEvent.releaseMarker = true) :=
  convertVideo_event_ordering false true true rfl rfl

end MediaMinify
